import Mathlib

/-!
Shallow embedding of the pyopm500 OPM500 driver
(`src/pyopm500/__init__.py`, line numbers below refer to that file).

Modelling conventions:
* Python strings are `List Char`.
* Python floats are `Rat` (exact rational arithmetic); `round(x, n)` is
  modelled as exact round-half-to-even at `n` decimal places.
* Python exceptions are `Except PyErr`; a stateful operation returns
  the mutated object state together with the `Except` outcome, so a
  partial update made before an exception stays visible.
* The serial device is an oracle `env : Nat -> List Char` giving the
  successive replies of `_opm_recv`, consumed in order (index `k`).
* `math.log10` (a float routine) is a parameter `log10 : Rat -> Rat`;
  its documented domain error on non-positive arguments is modelled
  explicitly.  `math.pi` is likewise a parameter.
-/

attribute [local semireducible] Rat.mul Rat.add Rat.inv Rat.sub

/-- Python exception kinds raised by the embedded code paths. -/
inductive PyErr where
  | valueError
  | indexError
  | typeError
  | keyError
  | zeroDivisionError
  | exception
deriving DecidableEq

/-- Decidable equality for `Except` outcomes, so that concrete runs of the
model can be settled by `decide`. -/
instance {ε α : Type} [DecidableEq ε] [DecidableEq α] : DecidableEq (Except ε α)
  | .ok x, .ok y =>
    if h : x = y then isTrue (congrArg Except.ok h)
    else isFalse (fun hh => h (Except.ok.inj hh))
  | .error x, .error y =>
    if h : x = y then isTrue (congrArg Except.error h)
    else isFalse (fun hh => h (Except.error.inj hh))
  | .ok _, .error _ => isFalse (fun hh => Except.noConfusion hh)
  | .error _, .ok _ => isFalse (fun hh => Except.noConfusion hh)

/-- `strPrefix p s` : does the string `s` start with `p` (Python `str.startswith`
generalised; used to implement substring search and `str.replace`). -/
def strPrefix : List Char → List Char → Bool
  | [], _ => true
  | _ :: _, [] => false
  | a :: as, b :: bs => if a = b then strPrefix as bs else false

/-- `strContains s pat` : Python `s.count(pat) > 0`, i.e. `pat` occurs as a
contiguous substring of `s`. -/
def strContains (s pat : List Char) : Bool :=
  match s with
  | [] => strPrefix pat []
  | c :: cs => strPrefix pat (c :: cs) || strContains cs pat

/-- Fuelled worker for `strReplace`; the fuel is an upper bound on the length
of the remaining string, so with fuel `s.length` the fuel never runs out
before the string does (each step consumes at least one character). -/
def strReplaceF (pat rep : List Char) : Nat → List Char → List Char
  | 0, s => s
  | _ + 1, [] => []
  | fuel + 1, c :: cs =>
    if pat ≠ [] ∧ strPrefix pat (c :: cs) then
      rep ++ strReplaceF pat rep fuel (List.drop (pat.length - 1) cs)
    else
      c :: strReplaceF pat rep fuel cs

/-- Python `s.replace(pat, rep)` for a non-empty pattern: replaces every
non-overlapping occurrence of `pat`, scanning left to right. -/
def strReplace (pat rep s : List Char) : List Char :=
  strReplaceF pat rep s.length s

/-- ASCII whitespace recognised by Python `str.strip()`. -/
def isPySpace (c : Char) : Bool :=
  c = ' ' ∨ c = '\t' ∨ c = '\n' ∨ c = '\r' ∨ c = '\x0b' ∨ c = '\x0c'

/-- Python `s.strip()`: remove leading and trailing whitespace. -/
def pyStrip (s : List Char) : List Char :=
  ((s.dropWhile isPySpace).reverse.dropWhile isPySpace).reverse

/-- Numeric value of a digit string (most significant digit first). -/
def digitsVal (s : List Char) : Nat :=
  s.foldl (fun a c => a * 10 + (c.toNat - 48)) 0

/-- Python `float(s)` restricted to the decimal forms the device produces:
optional surrounding whitespace, optional sign, digits with at most one
decimal point (at least one digit overall).  Exponent/inf/nan forms are not
modelled.  Unparseable input is `none` (Python raises `ValueError`). -/
def pyFloat (s : List Char) : Option Rat :=
  let t := pyStrip s
  let su : Int × List Char :=
    match t with
    | '-' :: r => (-1, r)
    | '+' :: r => (1, r)
    | _ => (1, t)
  let ip := su.2.takeWhile Char.isDigit
  let rest := su.2.dropWhile Char.isDigit
  match rest with
  | [] => if ip.isEmpty then none else some (su.1 * (digitsVal ip : Rat))
  | '.' :: fp =>
    if fp.all Char.isDigit ∧ ¬(ip.isEmpty ∧ fp.isEmpty) then
      some (su.1 * ((digitsVal ip : Rat) + (digitsVal fp : Rat) / (10 : Rat) ^ fp.length))
    else none
  | _ => none

/-- Python `int(s)` restricted to optional whitespace, optional sign and a
non-empty run of decimal digits; anything else raises `ValueError`. -/
def pyInt (s : List Char) : Except PyErr Int :=
  let t := pyStrip s
  let su : Int × List Char :=
    match t with
    | '-' :: r => (-1, r)
    | '+' :: r => (1, r)
    | _ => (1, t)
  if su.2 ≠ [] ∧ su.2.all Char.isDigit then .ok (su.1 * (digitsVal su.2 : Int))
  else .error .valueError

/-- Python `s.find(c)` for a single-character needle: index of the first
occurrence, `-1` when absent. -/
def pyFind : List Char → Char → Int
  | [], _ => -1
  | c :: cs, t =>
    if c = t then 0
    else
      let r := pyFind cs t
      if r = -1 then -1 else r + 1

/-- Python slice `s[i:]` for a possibly negative integer start index. -/
def pySliceFrom (s : List Char) (i : Int) : List Char :=
  if 0 ≤ i then s.drop i.toNat else s.drop (s.length - (-i).toNat)

/-- Python `str(n).zfill(w)`: left-pad with `'0'` to width `w`, keeping a
leading sign in front of the padding. -/
def pyZfill (w : Nat) (s : List Char) : List Char :=
  match s with
  | '-' :: r => if s.length < w then '-' :: (List.replicate (w - s.length) '0' ++ r) else s
  | '+' :: r => if s.length < w then '+' :: (List.replicate (w - s.length) '0' ++ r) else s
  | _ => if s.length < w then List.replicate (w - s.length) '0' ++ s else s

/-- Worker for `pySplitlines`: accumulates the current line (reversed). -/
def slGo (acc : List Char) : List Char → List (List Char)
  | [] => [acc.reverse]
  | '\r' :: '\n' :: rest => acc.reverse :: (if rest.isEmpty then [] else slGo [] rest)
  | '\n' :: rest => acc.reverse :: (if rest.isEmpty then [] else slGo [] rest)
  | '\r' :: rest => acc.reverse :: (if rest.isEmpty then [] else slGo [] rest)
  | c :: rest => slGo (c :: acc) rest

/-- Python `s.splitlines()` (restricted to the `\n`, `\r`, `\r\n` line
terminators): no entry for a trailing terminator, `[]` on the empty string. -/
def pySplitlines (s : List Char) : List (List Char) :=
  if s.isEmpty then [] else slGo [] s

/-- Round-half-to-even to an integer (the rounding mode of Python `round`). -/
def roundHalfEven (x : Rat) : Int :=
  let f := ⌊x⌋
  let r := x - f
  if r < 1 / 2 then f
  else if 1 / 2 < r then f + 1
  else if f % 2 = 0 then f else f + 1

/-- Python `round(x, n)` modelled exactly on rationals. -/
def pyRound (x : Rat) (n : Nat) : Rat :=
  ((roundHalfEven (x * (10 : Rat) ^ n) : Int) : Rat) / (10 : Rat) ^ n

/-- Python `s.startswith(p)` for a one-character prefix `p`. -/
def pyStartsWith (s : List Char) (c : Char) : Bool :=
  match s with
  | [] => false
  | x :: _ => x = c

/-- Association-list lookup (Python `dict[key]`), `none` for a missing key. -/
def assoc (k : List Char) : List (List Char × List Char) → Option (List Char)
  | [] => none
  | (k', v) :: rest => if k' = k then some v else assoc k rest

/-- Reverse lookup (Python `dict(zip(d.values(), d.keys()))[v]`). -/
def assocInv (v : List Char) : List (List Char × List Char) → Option (List Char)
  | [] => none
  | (k, v') :: rest => if v' = v then some k else assocInv v rest

/-- Turn a finite reply list into a reply oracle (missing replies are `[]`). -/
def envOf (l : List (List Char)) : Nat → List Char :=
  fun n => l.getD n []

/-! ### Fixed strings of the driver (lines 32-128) -/

def autoGainS : List Char := ("auto-gain").data
def okSuffix : List Char := (" OK").data
def kfMark : List Char := ("KF:").data
def gainMark : List Char := ("Gain: ").data
def aOkS : List Char := ("A OK").data
def rOkS : List Char := ("R OK").data
def vqOkS : List Char := ("V? OK").data
def uASuffix : List Char := ("uA").data
def microAmpS : List Char := ("µA").data
def milliAmpS : List Char := ("mA").data
def dBmS : List Char := ("dBm").data
def noneAzS : List Char := ("None").data
def autoZeroS : List Char := ("Auto zero").data
def khz10S : List Char := ("10 kHz").data
def x1S : List Char := ("x1").data

/-- `self._bandwith_steps` (lines 77-82). -/
def bandwithSteps : List (List Char × List Char) :=
  [(("10 kHz").data, ("B1").data), (("1 kHz").data, ("B2").data),
   (("100 Hz").data, ("B3").data), (("10 Hz").data, ("B4").data)]

/-- `self._gain_steps` (lines 84-92): six fixed levels plus the `auto-gain`
entry — seven entries in total. -/
def gainSteps : List (List Char × List Char) :=
  [(("x1").data, ("V1").data), (("x10").data, ("V2").data),
   (("x100").data, ("V3").data), (("x1000").data, ("V4").data),
   (("x10000").data, ("V5").data), (("x100000").data, ("V6").data),
   (("auto-gain").data, ("auto-gain").data)]

/-- `len(self._gain_steps)` = 7 (used as the autogain recursion cap, line 516,
and, minus one, as the default `_max_gain`, lines 116, 494, 505). -/
def lenGainSteps : Nat := gainSteps.length

/-- Current units bypassing the correction factor (line 594). -/
def currentUnits : List (List Char) :=
  [("nA").data, ("µA").data, ("mA").data, ("A").data]

/-- Irradiance units divided by the aperture area (line 614). -/
def irradianceUnits : List (List Char) :=
  [("nW/cm²").data, ("µW/cm²").data, ("mW/cm²").data, ("W/cm²").data]

/-! ### The in-memory configuration (`OPM500.__init__`, lines 68-127) -/

/-- The mutable configuration fields of an `OPM500` object that the claims
are about (names follow the Python attributes without the leading
underscore). -/
structure OPMState where
  unit : List Char
  sensitivity : Rat
  wavelength : Int
  initial_auto_zero : List Char
  invert_input_polarity : Bool
  bandwith : List Char
  autogain_gain : Option Int
  gain : List Char
  max_gain : Int
  filter : Rat
  aperture : Rat
  det_min : Int
  det_max : Int
deriving DecidableEq

/-- The defaults set by `__init__` (lines 109-127).  The detector bounds are
`None` until `_initialize` runs; we use the post-`_initialize` sentinel `-1`
(line 280-281) since every claim operates on a connected device. -/
def initState : OPMState :=
  { unit := microAmpS
    sensitivity := 1
    wavelength := 660
    initial_auto_zero := noneAzS
    invert_input_polarity := false
    bandwith := khz10S
    autogain_gain := none
    gain := x1S
    max_gain := (lenGainSteps : Int) - 1
    filter := 1
    aperture := 7
    det_min := -1
    det_max := -1 }

/-! ### Configuration setters / getters -/

/-- `opm_get_wavelength` (lines 362-369): returns `self._wavelength`. -/
def opm_get_wavelength (st : OPMState) : Int :=
  st.wavelength

/-- The command bytes `opm_set_wavelength` writes when the range check
passes (lines 385-389): `"L"` followed by each character of the zero-padded
wavelength, each sent as its own message. -/
def wlSent (w : Int) : List (List Char) :=
  ['L'] :: (pyZfill 4 (toString w).data).map (fun c => [c])

/-- `opm_set_wavelength` (lines 371-396).  Returns (state, sent messages,
outcome).  Out-of-range values fail before anything is sent (line 381-382).
On a reply containing `"KF:"`, `self._wavelength` is assigned *before* the
correction factor is parsed (lines 392-394), so an unparseable factor leaves
a partially updated state behind the raised `ValueError`. -/
def opm_set_wavelength (st : OPMState) (w : Int) (recv : List Char) :
    OPMState × List (List Char) × Except PyErr Bool :=
  if ¬(st.det_min ≤ w ∧ w ≤ st.det_max) then (st, [], .ok false)
  else
    let sent := wlSent w
    if strContains recv kfMark then
      let st1 := { st with wavelength := w }
      match pyFloat (pyStrip (strReplace [','] ['.'] (strReplace kfMark [] recv))) with
      | some f => ({ st1 with sensitivity := f }, sent, .ok true)
      | none => (st1, sent, .error .valueError)
    else (st, sent, .ok false)

/-- The polarity command character (line 352): `"N"` for normal,
`"C"` for inverted. -/
def polarityCmd (inv : Bool) : List Char :=
  if inv = false then ['N'] else ['C']

/-- `opm_set_polarity` (lines 340-360).  Returns (state, result, sent
message).  Note line 354: the transmitted message is `"$" + command`. -/
def opm_set_polarity (st : OPMState) (inv : Bool) (recv : List Char) :
    OPMState × Bool × List Char :=
  let cmd := polarityCmd inv
  let sent := '$' :: cmd
  if recv = cmd ++ okSuffix then
    ({ st with invert_input_polarity := inv }, true, sent)
  else (st, false, sent)

/-- `opm_set_bandwith` (lines 413-434): unknown bandwidth raises (line 427);
otherwise state is updated only on the exact `"<code> OK"` acknowledgment. -/
def opm_set_bandwith (st : OPMState) (bw recv : List Char) :
    OPMState × Except PyErr Bool :=
  match assoc bw bandwithSteps with
  | none => (st, .error .exception)
  | some code =>
    if recv = code ++ okSuffix then ({ st with bandwith := bw }, .ok true)
    else (st, .ok false)

/-- `opm_set_gain` (lines 454-481): unknown gain raises (line 468);
`"auto-gain"` sends nothing and sets `self._gain` unconditionally
(lines 470-472); a fixed level updates `self._gain` only when the current
gain is not `"auto-gain"` (lines 477-478) and always refreshes the numeric
level `self._autogain_gain` from the command code (line 479). -/
def opm_set_gain (st : OPMState) (g recv : List Char) :
    OPMState × Except PyErr Bool :=
  match assoc g gainSteps with
  | none => (st, .error .exception)
  | some code =>
    if g = autoGainS then ({ st with gain := g }, .ok true)
    else if recv = code ++ okSuffix then
      let st1 := if st.gain ≠ autoGainS then { st with gain := g } else st
      match pyInt (List.drop 1 code) with
      | .ok n => ({ st1 with autogain_gain := some n }, .ok true)
      | .error e => (st1, .error e)
    else (st, .ok false)

/-- `opm_get_gain` (lines 436-452): splits the reply into lines, indexes
line 0 and line 1 unconditionally once line 0 matched (line 447, an
`IndexError` when they are missing), accepts any of the seven `_gain_steps`
values on line 1 (including `"auto-gain"`, whose code then fails integer
parsing at line 450), updates `self._gain` only when not in auto-gain. -/
def opm_get_gain (st : OPMState) (recv : List Char) :
    OPMState × Except PyErr (Option (List Char)) :=
  match pySplitlines recv with
  | [] => (st, .error .indexError)
  | g0 :: rest =>
    if g0 = vqOkS then
      match rest with
      | [] => (st, .error .indexError)
      | g1 :: _ =>
        if (gainSteps.map Prod.snd).contains g1 then
          match assocInv g1 gainSteps with
          | none => (st, .error .keyError)
          | some key =>
            let st1 := if st.gain ≠ autoGainS then { st with gain := key } else st
            match assoc key gainSteps with
            | none => (st1, .error .keyError)
            | some code =>
              match pyInt (List.drop 1 code) with
              | .ok n => ({ st1 with autogain_gain := some n }, .ok (some key))
              | .error e => (st1, .error e)
        else (st, .ok none)
    else (st, .ok none)

/-- `opm_set_auto_zero` (lines 483-497): a reply *containing* `"Gain: "`
sets the auto-zero flag, then parses the reply's last character as the new
`_max_gain` (line 489; a non-digit raises `ValueError` after the flag was
already set); otherwise a reply *containing* `"A OK"` sets the flag and
restores the full range; anything else fails with no update. -/
def opm_set_auto_zero (st : OPMState) (recv : List Char) :
    OPMState × Except PyErr Bool :=
  if strContains recv gainMark then
    let st1 := { st with initial_auto_zero := autoZeroS }
    match recv.getLast? with
    | none => (st1, .error .indexError)
    | some c =>
      match pyInt [c] with
      | .ok n => ({ st1 with max_gain := n }, .ok true)
      | .error e => (st1, .error e)
  else if strContains recv aOkS then
    ({ st with initial_auto_zero := autoZeroS, max_gain := (lenGainSteps : Int) - 1 }, .ok true)
  else (st, .ok false)

/-- `opm_set_auto_zero_reset` (lines 499-508): exact `"R OK"` sets the
auto-zero flag and restores the full gain range. -/
def opm_set_auto_zero_reset (st : OPMState) (recv : List Char) :
    OPMState × Except PyErr Bool :=
  if recv = rOkS then
    ({ st with initial_auto_zero := autoZeroS, max_gain := (lenGainSteps : Int) - 1 }, .ok true)
  else (st, .ok false)

/-- `opm_get_single_raw_measure` (lines 565-573): strips the leading `'I'`
and surrounding whitespace from the reply. -/
def opm_get_single_raw_measure (recv : List Char) : List Char :=
  pyStrip (List.drop 1 recv)

/-! ### The autogain controller (`_opm_autogain`, lines 510-563) -/

/-- Result of a `_opm_autogain` run: final object state, next oracle index,
outcome (the reading, or the propagated exception), and — as pure
instrumentation — the number of gain adjustments performed. -/
structure AgRes where
  st : OPMState
  k : Nat
  res : Except PyErr (List Char)
  adj : Nat

/-- The full-scale percentage table (lines 539-550): the measured amplitude
divided by the per-level full-scale constant; levels 4-6 intentionally repeat
the constants of levels 1-3 ("This is not a typo").  A gain outside 1-6
(including `None`) leaves the level at its initial `0.0` (line 524). -/
def agLevel (g : Option Int) (a : Rat) : Rat :=
  if g = some 1 then a / (12285 / 100)
  else if g = some 2 then a / (12285 / 1000)
  else if g = some 3 then a / (12285 / 10000)
  else if g = some 4 then a / (12285 / 100)
  else if g = some 5 then a / (12285 / 1000)
  else if g = some 6 then a / (12285 / 10000)
  else 0

/-- One step of `_opm_autogain` (lines 510-563), structurally recursive on
the fuel `gas`.  The Python function recurses with `recursion + 1`
(or, after the hysteresis guard of line 557-558, with
`len(self._gain_steps) + 1 = 8`) and returns as soon as
`recursion >= len(self._gain_steps)` (line 516); since `recursion` grows by
at least one per nested call, a call with `gas = recursion-budget + 1 = 8`
never reaches the fuel-exhaustion arm with work left (when the fuel hits 0
after 8 nested calls, `recursion ≥ 8` and the arm returns exactly what the
line-516 guard would) — the first arm below is therefore behaviourally
identical to the guard.

Branches, following the source: optionally resolve the numeric gain via
`opm_get_gain` (lines 519-520, one oracle reply); parse the amplitude
(line 522, `ValueError` on bad input); compare the full-scale percentage
(comparing against `None` raises `TypeError` exactly where Python's
short-circuit `and` would evaluate it); decrement (lines 552-555) or
increment (lines 556-561) the level, where each adjustment mutates
`self._autogain_gain` first, then looks the new code up (a `KeyError` if it
is not a `V1..V6` value), applies it via `opm_set_gain` (one oracle reply,
result ignored), re-measures (one oracle reply) and recurses. -/
def agLoop (env : Nat → List Char) :
    Nat → OPMState → Nat → List Char → Nat → Nat → AgRes
  | 0, st, k, tmp, _, _ => ⟨st, k, .ok tmp, 0⟩
  | gas + 1, st0, k0, tmp, recursion, lastOp =>
    if lenGainSteps ≤ recursion then ⟨st0, k0, .ok tmp, 0⟩
    else
      let gq : OPMState × Nat × Option PyErr :=
        if st0.autogain_gain = none then
          match opm_get_gain st0 (env k0) with
          | (st1, .error e) => (st1, k0 + 1, some e)
          | (st1, .ok _) => (st1, k0 + 1, none)
        else (st0, k0, none)
      match gq with
      | (st1, k1, some e) => ⟨st1, k1, .error e, 0⟩
      | (st1, k1, none) =>
        match pyFloat (strReplace [','] ['.'] (List.take (tmp.length - 2) tmp)) with
        | none => ⟨st1, k1, .error .valueError, 0⟩
        | some a =>
          let level := agLevel st1.autogain_gain a
          let adjust : Int → Nat → Nat → AgRes := fun gNew recNext opNew =>
            let st2 := { st1 with autogain_gain := some gNew }
            match assocInv ('V' :: (toString gNew).data) gainSteps with
            | none => ⟨st2, k1, .error .keyError, 1⟩
            | some key =>
              match opm_set_gain st2 key (env k1) with
              | (st3, .error e) => ⟨st3, k1 + 1, .error e, 1⟩
              | (st3, .ok _) =>
                let r := agLoop env gas st3 (k1 + 2)
                  (opm_get_single_raw_measure (env (k1 + 1))) recNext opNew
                ⟨r.st, r.k, r.res, 1 + r.adj⟩
          let elif2 : Unit → AgRes := fun _ =>
            if level < 8 then
              match st1.autogain_gain with
              | none => ⟨st1, k1, .error .typeError, 0⟩
              | some g =>
                if g < st1.max_gain then
                  let rec2 := if lastOp = 1 then lenGainSteps else recursion
                  adjust (g + 1) (rec2 + 1) 2
                else ⟨st1, k1, .ok tmp, 0⟩
            else ⟨st1, k1, .ok tmp, 0⟩
          if 90 < level then
            match st1.autogain_gain with
            | none => ⟨st1, k1, .error .typeError, 0⟩
            | some g =>
              if 1 < g then adjust (g - 1) (recursion + 1) 1
              else elif2 ()
          else elif2 ()

/-- `_opm_autogain(tmp, recursion, last_operation)` (line 510): the fuelled
loop started with fuel `len(self._gain_steps) + 1`, which the loop never
exhausts (see `agLoop`). -/
def opm_autogain (env : Nat → List Char) (st : OPMState) (k : Nat)
    (tmp : List Char) (recursion lastOp : Nat) : AgRes :=
  agLoop env (lenGainSteps + 1) st k tmp recursion lastOp

/-! ### The measurement pipeline (`opm_get_measurement`, lines 575-617) -/

/-- Lines 585-617 of `opm_get_measurement`: unit-suffix extraction, comma
fix-up, float parse, µA→nA normalisation, correction/filter division, scale
selection with rounding, dBm logarithm (domain error on a non-positive
argument), and the irradiance area division.  Division by a zero denominator
is Python's `ZeroDivisionError`. -/
def measureFinish (log10 : Rat → Rat) (piV : Rat) (st : OPMState)
    (amp : List Char) : OPMState × Except PyErr (Rat × List Char) :=
  let unit := pySliceFrom amp (pyFind amp 'A' - 1)
  match pyFloat (strReplace [','] ['.'] (List.take (amp.length - 2) amp)) with
  | none => (st, .error .valueError)
  | some m0 =>
    let m1 := if unit = uASuffix then m0 * 1000 else m0
    let sens := if currentUnits.contains st.unit then 1 else st.sensitivity
    let den := sens * st.filter
    if den = 0 then (st, .error .zeroDivisionError)
    else
      let v := m1 / den
      let scaled : Except PyErr Rat :=
        if pyStartsWith st.unit 'n' then .ok (pyRound v 3)
        else if pyStartsWith st.unit 'µ' then .ok (pyRound (v / 1000) 6)
        else if pyStartsWith st.unit 'm' then .ok (pyRound (v / 1000000) 9)
        else if st.unit = dBmS then
          if v / 1000000 ≤ 0 then .error .valueError
          else .ok (pyRound (10 * log10 (v / 1000000)) 5)
        else .ok (pyRound (v / 1000000000) 12)
      match scaled with
      | .error e => (st, .error e)
      | .ok v1 =>
        if irradianceUnits.contains st.unit then
          let area := ((st.aperture ^ 2) / 400) * piV
          if area = 0 then (st, .error .zeroDivisionError)
          else (st, .ok (v1 / area, st.unit))
        else (st, .ok (v1, st.unit))

/-- `opm_get_measurement` (lines 575-617): take a raw reading (one oracle
reply), run the autogain controller when the gain mode is `"auto-gain"`
(lines 583-584), then convert (see `measureFinish`). -/
def opm_get_measurement (log10 : Rat → Rat) (piV : Rat)
    (env : Nat → List Char) (k : Nat) (st : OPMState) :
    OPMState × Except PyErr (Rat × List Char) :=
  let amp0 := opm_get_single_raw_measure (env k)
  if st.gain = autoGainS then
    let r := opm_autogain env st (k + 1) amp0 0 0
    match r.res with
    | .error e => (r.st, .error e)
    | .ok amp => measureFinish log10 piV r.st amp
  else measureFinish log10 piV st amp0

/-! ### The identity model-marker check (`_initialize`, lines 262-266) -/

/-- Lowercase image of the next six characters equals `"opm500"` — the
case-insensitive match of the literal `opm500` at the current position. -/
def markerHere (s : List Char) : Bool :=
  (s.take 6).map Char.toLower = ("opm500").data

/-- Worker embedding
`re.sub(r"^(opm500)(?:\n|.*$)*", "\\1", info, flags=MULTILINE|IGNORECASE)`
(line 265) for this fixed pattern: scan for the first position that starts a
line (`^` with MULTILINE: offset 0 or right after `'\n'`) and matches
`opm500` case-insensitively; the match then extends to the end of the string
(`(?:\n|.*$)*` greedily consumes everything) and is replaced by the captured
group — the six *original* characters.  No match leaves the text unchanged. -/
def markerGo : Bool → List Char → List Char → List Char
  | _, acc, [] => acc.reverse
  | atLS, acc, c :: cs =>
    if atLS ∧ markerHere (c :: cs) then acc.reverse ++ (c :: cs).take 6
    else markerGo (c = '\n') (c :: acc) cs

/-- The value of the `re.sub` call of line 265 on `info`. -/
def markerSub (info : List Char) : List Char :=
  markerGo true [] info

/-- The model-marker acceptance of `_initialize` (lines 265-266):
initialization proceeds iff the `re.sub` result equals `"OPM500"`. -/
def markerCheck (info : List Char) : Bool :=
  markerSub info = ("OPM500").data

/-- Modelled from the spec's words (claim C7): "the identity parse succeeds
iff some line of the block begins with the device-model marker `OPM500`
compared case-insensitively".  Stated for comparison with `markerCheck`,
which embeds the code. -/
def specMarkerAccepts (info : List Char) : Bool :=
  (pySplitlines info).any markerHere

/-! ### Helper lemmas about the string primitives -/

theorem strPrefix_self_append (p t : List Char) : strPrefix p (p ++ t) = true := by
  induction p with
  | nil => rfl
  | cons c cs ih => simp [strPrefix, ih]

theorem strContains_self_append (p t : List Char) (hp : p ≠ []) :
    strContains (p ++ t) p = true := by
  cases p with
  | nil => exact absurd rfl hp
  | cons c cs =>
    rw [List.cons_append]
    simp only [strContains, Bool.or_eq_true]
    exact Or.inl (strPrefix_self_append (c :: cs) t)

theorem strReplaceF_eq_self (c0 : Char) (pr rep : List Char) :
    ∀ (fuel : Nat) (s : List Char), (∀ c ∈ s, c ≠ c0) →
      strReplaceF (c0 :: pr) rep fuel s = s := by
  intro fuel
  induction fuel with
  | zero => intro s _; rfl
  | succ f ih =>
    intro s hs
    cases s with
    | nil => rfl
    | cons c cs =>
      have hc : ¬(c0 = c) := fun h => hs c (by simp) h.symm
      have hpre : strPrefix (c0 :: pr) (c :: cs) = false := by
        simp [strPrefix, hc]
      simp only [strReplaceF, hpre, Bool.false_eq_true, and_false, if_neg, ne_eq,
        reduceCtorEq, not_false_eq_true, and_true]
      rw [ih cs (fun c' h' => hs c' (by simp [h']))]

theorem strReplaceF_head (p0 : Char) (pr rep : List Char) (fuel : Nat) (t : List Char) :
    strReplaceF (p0 :: pr) rep (fuel + 1) ((p0 :: pr) ++ t)
      = rep ++ strReplaceF (p0 :: pr) rep fuel t := by
  have hpre := strPrefix_self_append (p0 :: pr) t
  rw [List.cons_append]
  simp only [strReplaceF]
  rw [if_pos ⟨by simp, hpre⟩]
  have hdrop : List.drop ((p0 :: pr).length - 1) (pr ++ t) = t := by
    simp [List.drop_left]
  rw [hdrop]

theorem strReplace_head_rest (p0 : Char) (pr rep t : List Char) :
    strReplace (p0 :: pr) rep ((p0 :: pr) ++ t)
      = rep ++ strReplaceF (p0 :: pr) rep (pr.length + t.length) t := by
  have hl : ((p0 :: pr) ++ t).length = (pr.length + t.length) + 1 := by
    simp only [List.cons_append, List.length_cons, List.length_append]
  unfold strReplace
  rw [hl, strReplaceF_head]

theorem strReplace_kf (t : List Char) (ht : ∀ c ∈ t, c ≠ 'K') :
    strReplace kfMark [] (kfMark ++ t) = t := by
  have hk : kfMark = 'K' :: ('F' :: (':' :: [])) := rfl
  rw [hk]
  rw [strReplace_head_rest]
  rw [strReplaceF_eq_self 'K' ('F' :: (':' :: [])) [] _ t ht]
  rfl

theorem strReplaceF_single (a b : Char) :
    ∀ (s : List Char) (fuel : Nat), s.length ≤ fuel →
      strReplaceF [a] [b] fuel s = s.map (fun c => if c = a then b else c) := by
  intro s
  induction s with
  | nil => intro fuel _; cases fuel <;> rfl
  | cons c cs ih =>
    intro fuel hf
    cases fuel with
    | zero => simp at hf
    | succ f =>
      have hf' : cs.length ≤ f := by simpa using hf
      by_cases hc : c = a
      · subst hc
        have hpre : strPrefix [c] (c :: cs) = true := by simp [strPrefix]
        simp only [strReplaceF, hpre, ne_eq, reduceCtorEq, not_false_eq_true, true_and, if_true,
          List.length_cons, List.length_nil, Nat.zero_add, Nat.sub_self, List.drop_zero, List.map]
        rw [ih f hf']
        simp
      · have hpre : strPrefix [a] (c :: cs) = false := by
          simp [strPrefix]
          intro h
          exact absurd h.symm hc
        simp only [strReplaceF, hpre, Bool.false_eq_true, and_false, if_neg, ne_eq,
          reduceCtorEq, not_false_eq_true, and_true, List.map]
        rw [ih f hf']
        simp [hc]

theorem strReplace_single (a b : Char) (s : List Char) :
    strReplace [a] [b] s = s.map (fun c => if c = a then b else c) :=
  strReplaceF_single a b s s.length le_rfl

theorem dropWhile_eq_self_of (p : Char → Bool) (s : List Char)
    (h : ∀ c ∈ s, p c = false) : s.dropWhile p = s := by
  cases s with
  | nil => rfl
  | cons c cs => simp [List.dropWhile_cons, h c (by simp)]

theorem pyStrip_eq_self (s : List Char) (h : ∀ c ∈ s, isPySpace c = false) :
    pyStrip s = s := by
  unfold pyStrip
  rw [dropWhile_eq_self_of _ _ h]
  rw [dropWhile_eq_self_of _ _ (fun c hc => h c (List.mem_reverse.mp hc))]
  exact List.reverse_reverse s

theorem ne_of_digit {c x : Char} (h : c.isDigit = true) (hx : x.isDigit = false) :
    c ≠ x := by
  intro he
  subst he
  rw [h] at hx
  exact Bool.noConfusion hx

theorem isPySpace_eq_false_of_digit {c : Char} (h : c.isDigit = true) :
    isPySpace c = false := by
  unfold isPySpace
  apply decide_eq_false
  rintro (rfl | rfl | rfl | rfl | rfl | rfl) <;> exact absurd h (by decide)

theorem pyFind_append_last (d : List Char) (u : Char)
    (hd : ∀ c ∈ d, c ≠ 'A') (hu : u ≠ 'A') :
    pyFind (d ++ [u, 'A']) 'A' = (d.length : Int) + 1 := by
  induction d with
  | nil => simp [pyFind, hu]
  | cons c cs ih =>
    have hc : c ≠ 'A' := hd c (by simp)
    have ihv := ih (fun c' h' => hd c' (by simp [h']))
    rw [List.cons_append]
    simp only [pyFind, hc, if_false, ihv]
    have hne : ((cs.length : Int) + 1) ≠ -1 := by omega
    rw [if_neg hne]
    simp only [List.length_cons]
    push_cast
    omega

/-! ### Lemmas about the marker scan (claim C7) -/

theorem markerGo_mem (x : Char) :
    ∀ (rem acc : List Char) (b : Bool), x ∈ acc → x ∈ markerGo b acc rem := by
  intro rem
  induction rem with
  | nil =>
    intro acc b h
    simpa [markerGo] using List.mem_reverse.mpr h
  | cons c cs ih =>
    intro acc b h
    simp only [markerGo]
    split
    · exact List.mem_append.mpr (Or.inl (List.mem_reverse.mpr h))
    · exact ih (c :: acc) _ (List.mem_cons_of_mem c h)

theorem markerGo_no_linestart :
    ∀ (rem acc : List Char), markerGo false acc rem = acc.reverse ++ rem
      ∨ '\n' ∈ markerGo false acc rem := by
  intro rem
  induction rem with
  | nil => intro acc; left; simp [markerGo]
  | cons c cs ih =>
    intro acc
    simp only [markerGo, Bool.false_eq_true, false_and, if_neg, not_false_eq_true]
    by_cases hc : c = '\n'
    · right
      subst hc
      exact markerGo_mem '\n' cs ('\n' :: acc) _ (by simp)
    · rw [show (decide (c = '\n')) = false from decide_eq_false hc]
      rcases ih (c :: acc) with h | h
      · left
        rw [h]
        simp
      · right
        exact h

theorem list_ne_of_mem_not_mem {x : Char} {l l' : List Char}
    (h : x ∈ l) (h' : x ∉ l') : l ≠ l' := by
  intro he
  exact h' (he ▸ h)

/-- Claim C7 (corrected): the marker check of `_initialize` accepts an
identity block iff the block *begins* with the exact six characters
`OPM500`: the `re.sub` of line 265 replaces the match (which always extends
to the end of the text) by the *original-case* captured group, and the
result is compared with the uppercase literal, so a case variant or a
marker on a later line never reproduces `"OPM500"` exactly. -/
theorem c7_amended (info : List Char) :
    markerCheck info = true ↔ info.take 6 = ("OPM500").data := by
  have hmc : markerCheck info = true ↔ markerSub info = ("OPM500").data := by
    unfold markerCheck
    exact decide_eq_true_iff
  rw [hmc]
  unfold markerSub
  by_cases hm : markerHere info = true
  · cases info with
    | nil => exact absurd hm (by decide)
    | cons c cs =>
      rw [show markerGo true [] (c :: cs) = [].reverse ++ (c :: cs).take 6 from by
        simp only [markerGo]; rw [if_pos ⟨trivial, hm⟩]]
      simp
  · have hrhs : ¬(info.take 6 = ("OPM500").data) := by
      intro h
      apply hm
      unfold markerHere
      rw [h]
      decide
    constructor
    · intro h
      exfalso
      cases info with
      | nil => exact absurd h (by decide)
      | cons c cs =>
        rw [show markerGo true [] (c :: cs) = markerGo (decide (c = '\n')) [c] cs from by
          simp only [markerGo]
          rw [if_neg (fun hh => hm hh.2)]] at h
        by_cases hc : c = '\n'
        · subst hc
          have : '\n' ∈ markerGo (decide (('\n' : Char) = '\n')) ['\n'] cs :=
            markerGo_mem '\n' cs ['\n'] _ (by simp)
          exact list_ne_of_mem_not_mem this (by decide) h
        · rw [show (decide (c = '\n')) = false from decide_eq_false hc] at h
          rcases markerGo_no_linestart cs [c] with h2 | h2
          · rw [h2] at h
            simp only [List.reverse_cons, List.reverse_nil, List.nil_append,
              List.singleton_append] at h
            apply hrhs
            rw [h]
            rfl
          · exact list_ne_of_mem_not_mem h2 (by decide) h
    · intro h
      exact absurd h hrhs

/-- Claim C7 counterexample: the block `"opm500 FW:1.0"` has a line that
begins with the marker case-insensitively (the spec's acceptance condition
holds), yet the code's check rejects it. -/
theorem c7_counterexample :
    markerCheck (("opm500 FW:1.0").data) = false
    ∧ specMarkerAccepts (("opm500 FW:1.0").data) = true := by
  decide

/-! ### Claim C10 : `opm_get_gain` is not total over reply shapes -/

/-- The six fixed-level command codes `V1..V6`. -/
def vCodes : List (List Char) :=
  [("V1").data, ("V2").data, ("V3").data, ("V4").data, ("V5").data, ("V6").data]

/-- Claim C10 (confirmed): a reply that is exactly the single line `"V? OK"`
(and likewise an empty reply) makes `opm_get_gain` raise an uncaught
`IndexError` instead of returning `None`, because the second line of the
split reply is indexed unconditionally once the first matched; and a
graceful `None` arises only when the first line differs from `"V? OK"` or
the second line is outside `V1..V6`. -/
theorem c10_get_gain :
    (∀ st, opm_get_gain st (("V? OK").data) = (st, .error .indexError))
    ∧ (∀ st, opm_get_gain st [] = (st, .error .indexError))
    ∧ (∀ st recv st', opm_get_gain st recv = (st', .ok none) →
        ∃ g0 rest, pySplitlines recv = g0 :: rest ∧
          (g0 ≠ vqOkS ∨ ∃ g1 rest2, rest = g1 :: rest2 ∧ g1 ∉ vCodes)) := by
  refine ⟨fun st => rfl, fun st => rfl, ?_⟩
  intro st recv st' h
  unfold opm_get_gain at h
  split at h
  next heq => exact absurd h (by simp)
  next g0 rest heq =>
    refine ⟨g0, rest, heq, ?_⟩
    by_cases h0 : g0 = vqOkS
    · rw [if_pos h0] at h
      split at h
      next => exact absurd h (by simp)
      next g1 rest2 =>
        right
        refine ⟨g1, rest2, rfl, ?_⟩
        by_cases h1 : (gainSteps.map Prod.snd).contains g1 = true
        · exfalso
          rw [if_pos h1] at h
          split at h
          next => exact absurd h (by simp)
          next key hinv =>
            simp only [] at h
            split at h
            next => exact absurd h (by simp)
            next code hak =>
              split at h
              next n hpi => exact absurd h (by simp)
              next e hpi => exact absurd h (by simp)
        · rw [if_neg h1] at h
          intro hmem
          apply h1
          have h6 : g1 = ("V1").data ∨ g1 = ("V2").data ∨ g1 = ("V3").data
              ∨ g1 = ("V4").data ∨ g1 = ("V5").data ∨ g1 = ("V6").data := by
            simpa [vCodes] using hmem
          rcases h6 with rfl | rfl | rfl | rfl | rfl | rfl <;> decide
    · left
      exact h0

/-- Claim C10 witness: the graceful-`None` characterisation instantiated at
the reply `"zzz"` (single line differing from `"V? OK"`). -/
theorem c10_witness :
    ∃ g0 rest, pySplitlines (("zzz").data) = g0 :: rest ∧
      (g0 ≠ vqOkS ∨ ∃ g1 rest2, rest = g1 :: rest2 ∧ g1 ∉ vCodes) :=
  c10_get_gain.2.2 initState (("zzz").data) initState (by decide)

/-! ### Claim C1 : failure responses leave the configuration unchanged -/

/-- Claim C1 counterexample: the response `"xxA OK"` to `opm_set_auto_zero`
is not the expected acknowledgment (it is not the exact `"A OK"` and
contains no `"Gain: "` report), yet the call *succeeds* and mutates the
configuration (the auto-zero state changes), because line 492 tests
`recv.count("A OK") > 0` — containment, not equality. -/
theorem c1_counterexample :
    (opm_set_auto_zero initState (("xxA OK").data)).2 = .ok true
    ∧ (opm_set_auto_zero initState (("xxA OK").data)).1.initial_auto_zero = autoZeroS
    ∧ initState.initial_auto_zero ≠ autoZeroS
    ∧ (("xxA OK").data) ≠ aOkS
    ∧ strContains (("xxA OK").data) gainMark = false := by
  decide

/-- Claim C1 (corrected): for the polarity, bandwidth, fixed-gain and
auto-zero-reset setters, any response other than the exact acknowledgment
yields failure with the whole configuration unchanged; for the auto-zero and
wavelength setters the same holds for any response that does not contain the
success-trigger substring (`"Gain: "` / `"A OK"`, resp. `"KF:"`).  (Trigger-
containing responses can instead succeed by containment, or raise after a
partial update — see the counterexample and `opm_set_wavelength`.) -/
theorem c1_amended :
    (∀ st inv recv, recv ≠ polarityCmd inv ++ okSuffix →
        opm_set_polarity st inv recv = (st, false, '$' :: polarityCmd inv))
    ∧ (∀ st bw code recv, assoc bw bandwithSteps = some code →
        recv ≠ code ++ okSuffix → opm_set_bandwith st bw recv = (st, .ok false))
    ∧ (∀ st g code recv, assoc g gainSteps = some code → g ≠ autoGainS →
        recv ≠ code ++ okSuffix → opm_set_gain st g recv = (st, .ok false))
    ∧ (∀ st recv, recv ≠ rOkS → opm_set_auto_zero_reset st recv = (st, .ok false))
    ∧ (∀ st recv, strContains recv gainMark = false → strContains recv aOkS = false →
        opm_set_auto_zero st recv = (st, .ok false))
    ∧ (∀ st w recv, st.det_min ≤ w → w ≤ st.det_max → strContains recv kfMark = false →
        opm_set_wavelength st w recv = (st, wlSent w, .ok false)) := by
  refine ⟨?_, ?_, ?_, ?_, ?_, ?_⟩
  · intro st inv recv h
    unfold opm_set_polarity
    rw [if_neg h]
  · intro st bw code recv h1 h2
    unfold opm_set_bandwith
    rw [h1]
    simp only []
    rw [if_neg h2]
  · intro st g code recv h1 h2 h3
    unfold opm_set_gain
    rw [h1]
    simp only []
    rw [if_neg h2, if_neg h3]
  · intro st recv h
    unfold opm_set_auto_zero_reset
    rw [if_neg h]
  · intro st recv h1 h2
    unfold opm_set_auto_zero
    rw [if_neg (by simp [h1]), if_neg (by simp [h2])]
  · intro st w recv h1 h2 h3
    unfold opm_set_wavelength
    rw [if_neg (by simp [h1, h2]), if_neg (by simp [h3])]

/-- Claim C1 witness: each failure clause instantiated at a concrete
mismatched response. -/
theorem c1_witness :
    opm_set_polarity initState false (("nope").data) = (initState, false, ("$N").data)
    ∧ opm_set_bandwith initState (("10 kHz").data) (("nope").data) = (initState, .ok false)
    ∧ opm_set_gain initState (("x1").data) (("nope").data) = (initState, .ok false)
    ∧ opm_set_auto_zero_reset initState (("nope").data) = (initState, .ok false)
    ∧ opm_set_auto_zero initState (("nope").data) = (initState, .ok false)
    ∧ opm_set_wavelength { initState with det_min := 200, det_max := 1100 } 660 (("nope").data)
        = ({ initState with det_min := 200, det_max := 1100 }, wlSent 660, .ok false) :=
  ⟨c1_amended.1 initState false (("nope").data) (by decide),
   c1_amended.2.1 initState (("10 kHz").data) (("B1").data) (("nope").data) (by decide) (by decide),
   c1_amended.2.2.1 initState (("x1").data) (("V1").data) (("nope").data) (by decide) (by decide) (by decide),
   c1_amended.2.2.2.1 initState (("nope").data) (by decide),
   c1_amended.2.2.2.2.1 initState (("nope").data) (by decide) (by decide),
   c1_amended.2.2.2.2.2 { initState with det_min := 200, det_max := 1100 } 660 (("nope").data)
     (by decide) (by decide) (by decide)⟩

/-! ### Claim C5 : fixed-level gain setter on exact acknowledgment -/

/-- Claim C5 counterexample: with the configuration in auto-gain mode, a
fixed-level `opm_set_gain` call acknowledged by the exact `"V1 OK"` returns
success and tracks the numeric level, but the gain mode stays `"auto-gain"`
instead of becoming the fixed level (lines 477-478 guard the assignment). -/
theorem c5_counterexample :
    (opm_set_gain { initState with gain := autoGainS } x1S (("V1 OK").data)).2 = .ok true
    ∧ (opm_set_gain { initState with gain := autoGainS } x1S (("V1 OK").data)).1.gain = autoGainS
    ∧ (opm_set_gain { initState with gain := autoGainS } x1S (("V1 OK").data)).1.autogain_gain
        = some 1
    ∧ autoGainS ≠ x1S := by
  decide

/-- Claim C5 (corrected): a fixed-level `opm_set_gain` acknowledged by the
exact `"<code> OK"` returns success and updates the tracked numeric level to
the level's number, and it sets the gain mode to that level *unless* the
prior gain mode is auto-gain, in which case the gain mode is left at
auto-gain. -/
theorem c5_amended (st : OPMState) (g code : List Char) (n : Int)
    (h1 : assoc g gainSteps = some code) (h2 : g ≠ autoGainS)
    (h3 : pyInt (List.drop 1 code) = .ok n) :
    (opm_set_gain st g (code ++ okSuffix)).2 = .ok true
    ∧ (opm_set_gain st g (code ++ okSuffix)).1.autogain_gain = some n
    ∧ (opm_set_gain st g (code ++ okSuffix)).1.gain
        = (if st.gain = autoGainS then st.gain else g) := by
  unfold opm_set_gain
  rw [h1]
  simp only []
  rw [if_neg h2, if_pos trivial, h3]
  by_cases hg : st.gain = autoGainS <;> simp [hg]

/-- Claim C5 witness: the amended statement at level `x10`/`V2`, from the
default configuration. -/
theorem c5_witness :
    (opm_set_gain initState (("x10").data) ((("V2").data) ++ okSuffix)).2 = .ok true
    ∧ (opm_set_gain initState (("x10").data) ((("V2").data) ++ okSuffix)).1.autogain_gain
        = some 2
    ∧ (opm_set_gain initState (("x10").data) ((("V2").data) ++ okSuffix)).1.gain
        = (if initState.gain = autoGainS then initState.gain else (("x10").data)) :=
  c5_amended initState (("x10").data) (("V2").data) 2 (by decide) (by decide) (by decide)

/-! ### Claim C6 : the polarity setter -/

/-- Claim C6 counterexample: the message actually transmitted for a
normal-polarity request is the two-character `"$N"` (line 354 prepends
`"$"`), not the bare one-character command `"N"` the claim states. -/
theorem c6_counterexample :
    (opm_set_polarity initState false (("N OK").data)).2.2 = ("$N").data
    ∧ ("$N").data ≠ ("N").data := by
  decide

/-- Claim C6 (corrected): `opm_set_polarity` transmits exactly `"$N"` when
normal polarity is requested and exactly `"$C"` when inverted polarity is
requested; on the exact acknowledgment `"N OK"` resp. `"C OK"` it sets the
polarity flag to the requested value and returns success. -/
theorem c6_amended (st : OPMState) (recv : List Char) :
    ((opm_set_polarity st false recv).2.2 = ("$N").data
      ∧ (opm_set_polarity st true recv).2.2 = ("$C").data)
    ∧ (recv = (("N").data) ++ okSuffix →
        opm_set_polarity st false recv
          = ({ st with invert_input_polarity := false }, true, ("$N").data))
    ∧ (recv = (("C").data) ++ okSuffix →
        opm_set_polarity st true recv
          = ({ st with invert_input_polarity := true }, true, ("$C").data)) := by
  refine ⟨⟨?_, ?_⟩, ?_, ?_⟩
  · unfold opm_set_polarity
    simp only []
    split <;> rfl
  · unfold opm_set_polarity
    simp only []
    split <;> rfl
  · intro h
    have h' : recv = polarityCmd false ++ okSuffix := h
    unfold opm_set_polarity
    simp only []
    rw [if_pos h']
    rfl
  · intro h
    have h' : recv = polarityCmd true ++ okSuffix := h
    unfold opm_set_polarity
    simp only []
    rw [if_pos h']
    rfl

/-- Claim C6 witness: both acknowledged branches at their exact replies. -/
theorem c6_witness :
    opm_set_polarity initState false (("N OK").data)
      = ({ initState with invert_input_polarity := false }, true, ("$N").data)
    ∧ opm_set_polarity initState true (("C OK").data)
      = ({ initState with invert_input_polarity := true }, true, ("$C").data) :=
  ⟨(c6_amended initState (("N OK").data)).2.1 (by decide),
   (c6_amended initState (("C OK").data)).2.2 (by decide)⟩

/-! ### Claim C2 : wavelength set/get roundtrip -/

/-- Claim C2 (confirmed): for any wavelength within the detector range, a
reply of the form `"KF:"` followed by a comma-decimal number makes the
setter succeed, store the wavelength (so a subsequent `opm_get_wavelength`
returns exactly it) and record the comma-to-point-converted correction
factor as the sensitivity; for any wavelength outside the range the setter
fails and transmits nothing, leaving the state unchanged. -/
theorem c2_roundtrip :
    (∀ (st : OPMState) (w : Int) (t : List Char) (f : Rat),
        st.det_min ≤ w → w ≤ st.det_max →
        (∀ c ∈ t, c.isDigit = true ∨ c = ',') →
        pyFloat (strReplace [','] ['.'] t) = some f →
        opm_set_wavelength st w (kfMark ++ t)
          = ({ st with wavelength := w, sensitivity := f }, wlSent w, .ok true)
        ∧ opm_get_wavelength (opm_set_wavelength st w (kfMark ++ t)).1 = w)
    ∧ (∀ (st : OPMState) (w : Int) (recv : List Char),
        ¬(st.det_min ≤ w ∧ w ≤ st.det_max) →
        opm_set_wavelength st w recv = (st, [], .ok false)) := by
  constructor
  · intro st w t f h1 h2 ht hp
    have hK : ∀ c ∈ t, c ≠ 'K' := by
      intro c hc
      rcases ht c hc with hd | rfl
      · exact ne_of_digit hd (by decide)
      · decide
    have hkf : strContains (kfMark ++ t) kfMark = true :=
      strContains_self_append kfMark t (by decide)
    have hstrip : pyStrip (strReplace [','] ['.'] t) = strReplace [','] ['.'] t := by
      apply pyStrip_eq_self
      intro c hc
      rw [strReplace_single] at hc
      rcases List.mem_map.mp hc with ⟨c', hc', rfl⟩
      by_cases hcc : c' = ','
      · simp only [hcc, if_pos]
        decide
      · rw [if_neg hcc]
        rcases ht c' hc' with hd | hcomma
        · exact isPySpace_eq_false_of_digit hd
        · exact absurd hcomma hcc
    have heq : opm_set_wavelength st w (kfMark ++ t)
        = ({ st with wavelength := w, sensitivity := f }, wlSent w, .ok true) := by
      unfold opm_set_wavelength
      rw [if_neg (not_not_intro ⟨h1, h2⟩)]
      rw [if_pos hkf]
      rw [strReplace_kf t hK, hstrip, hp]
    exact ⟨heq, by rw [heq]; rfl⟩
  · intro st w recv h
    unfold opm_set_wavelength
    rw [if_pos h]

/-- Claim C2 witness: wavelength 660 on a detector range 200-1100 nm with
the device reply `"KF:1,023"` records sensitivity 1.023 and reads back 660;
the hypotheses are discharged at these concrete values. -/
theorem c2_witness :
    opm_set_wavelength { initState with det_min := 200, det_max := 1100 } 660
        (kfMark ++ (("1,023").data))
      = ({ initState with
            det_min := 200
            det_max := 1100
            wavelength := 660
            sensitivity := 1023 / 1000 }, wlSent 660, .ok true)
    ∧ opm_get_wavelength ((opm_set_wavelength { initState with det_min := 200, det_max := 1100 }
        660 (kfMark ++ (("1,023").data))).1) = 660 :=
  c2_roundtrip.1 { initState with det_min := 200, det_max := 1100 } 660 (("1,023").data)
    (1023 / 1000) (by decide) (by decide) (by decide) (by decide)

/-! ### Lemmas for the measurement pipeline (claims C8, C9) -/

theorem unit_slice_of (d : List Char) (u : Char)
    (hd : ∀ c ∈ d, c ≠ 'A') (hu : u ≠ 'A') :
    pySliceFrom (d ++ [u, 'A']) (pyFind (d ++ [u, 'A']) 'A' - 1) = [u, 'A'] := by
  rw [pyFind_append_last d u hd hu]
  have h1 : ((d.length : Int) + 1) - 1 = (d.length : Int) := by ring
  rw [h1]
  unfold pySliceFrom
  rw [if_pos (by positivity)]
  rw [Int.toNat_natCast]
  exact List.drop_left d [u, 'A']

theorem mag_take_of (d : List Char) (u a : Char) :
    List.take ((d ++ [u, a]).length - 2) (d ++ [u, a]) = d := by
  have h : (d ++ [u, a]).length - 2 = d.length := by simp
  rw [h]
  exact List.take_left d [u, a]

theorem nonspace_digits_suffix (d : List Char) (u a : Char)
    (hd : ∀ c ∈ d, c.isDigit = true ∨ c = ',')
    (hu : isPySpace u = false) (ha : isPySpace a = false) :
    ∀ c ∈ d ++ [u, a], isPySpace c = false := by
  intro c hc
  rcases List.mem_append.mp hc with h | h
  · rcases hd c h with hdg | rfl
    · exact isPySpace_eq_false_of_digit hdg
    · decide
  · rcases List.mem_pair.mp h with rfl | rfl
    · exact hu
    · exact ha

theorem digits_ne_A (d : List Char) (hd : ∀ c ∈ d, c.isDigit = true ∨ c = ',') :
    ∀ c ∈ d, c ≠ 'A' := by
  intro c hc
  rcases hd c hc with hdg | rfl
  · exact ne_of_digit hdg (by decide)
  · decide

/-- Measurement entry reduction for a non-auto gain mode: one raw reading is
taken from the oracle, the `'I'` prefix stripped, and the conversion stages
applied (lines 582-584 with `self._gain` a fixed level). -/
theorem measurement_red (log10 : Rat → Rat) (piV : Rat) (st : OPMState) (amp : List Char)
    (hst : st.gain = x1S) :
    opm_get_measurement log10 piV (fun _ => 'I' :: amp) 0 st
      = measureFinish log10 piV st (pyStrip amp) := by
  unfold opm_get_measurement
  rw [if_neg (by rw [hst]; decide)]
  rfl

/-- Claim C8 (confirmed): with correction factor 1.0 and filter factor 1.0,
a `"uA"` raw reading is scaled by exactly 1000 into the nanoampere base
while an `"nA"` reading is left unchanged (the µA display for the same
parsed magnitude `m` shows `round(m, 6)` for the `uA` reading and
`round(m/1000, 6)` for the `nA` reading); and a 1000-nanoampere base yields
measurement value 1.0 for the micro-scale display (round 6) and 0.001 for
the milli-scale display (round 9). -/
theorem c8_pipeline :
    (∀ (log10 : Rat → Rat) (piV : Rat) (d : List Char) (m : Rat),
        (∀ c ∈ d, c.isDigit = true ∨ c = ',') →
        pyFloat (strReplace [','] ['.'] d) = some m →
        opm_get_measurement log10 piV (fun _ => 'I' :: (d ++ ['u', 'A'])) 0 initState
          = (initState, .ok (pyRound m 6, microAmpS))
        ∧ opm_get_measurement log10 piV (fun _ => 'I' :: (d ++ ['n', 'A'])) 0 initState
          = (initState, .ok (pyRound (m / 1000) 6, microAmpS)))
    ∧ opm_get_measurement (fun _ => 0) 0 (fun _ => (("I1000,0nA").data)) 0 initState
        = (initState, .ok (1, microAmpS))
    ∧ opm_get_measurement (fun _ => 0) 0 (fun _ => (("I1000,0nA").data)) 0
          { initState with unit := milliAmpS }
        = ({ initState with unit := milliAmpS }, .ok (1 / 1000, milliAmpS)) := by
  refine ⟨?_, by decide, by decide⟩
  intro log10 piV d m hd hm
  have hdA := digits_ne_A d hd
  constructor
  · have hstrip_u : pyStrip (d ++ ['u', 'A']) = d ++ ['u', 'A'] :=
      pyStrip_eq_self _ (nonspace_digits_suffix d 'u' 'A' hd (by decide) (by decide))
    rw [measurement_red log10 piV initState (d ++ ['u', 'A']) rfl, hstrip_u]
    unfold measureFinish
    rw [unit_slice_of d 'u' hdA (by decide), mag_take_of d 'u' 'A', hm]
    have huA : (['u', 'A'] : List Char) = uASuffix := by decide
    have hcur : currentUnits.contains initState.unit = true := by decide
    have hn : pyStartsWith initState.unit 'n' = false := by decide
    have hmu : pyStartsWith initState.unit 'µ' = true := by decide
    have hirr : irradianceUnits.contains initState.unit = false := by decide
    simp only [huA, hcur, hn, hmu, hirr, if_pos, if_true, eq_self_iff_true]
    norm_num
    rw [show initState.filter = (1 : Rat) from rfl, show initState.unit = microAmpS from rfl]
    rw [if_neg (by norm_num : ¬((1 : Rat) = 0))]
    rw [show m * 1000 / 1 / 1000 = m from by ring]
  · have hstrip_n : pyStrip (d ++ ['n', 'A']) = d ++ ['n', 'A'] :=
      pyStrip_eq_self _ (nonspace_digits_suffix d 'n' 'A' hd (by decide) (by decide))
    rw [measurement_red log10 piV initState (d ++ ['n', 'A']) rfl, hstrip_n]
    unfold measureFinish
    rw [unit_slice_of d 'n' hdA (by decide), mag_take_of d 'n' 'A', hm]
    have hnA : ¬((['n', 'A'] : List Char) = uASuffix) := by decide
    have hcur : currentUnits.contains initState.unit = true := by decide
    have hn : pyStartsWith initState.unit 'n' = false := by decide
    have hmu : pyStartsWith initState.unit 'µ' = true := by decide
    have hirr : irradianceUnits.contains initState.unit = false := by decide
    simp only [hnA, hcur, hn, hmu, hirr, if_pos, if_true, eq_self_iff_true, if_false]
    norm_num
    rw [show initState.filter = (1 : Rat) from rfl, show initState.unit = microAmpS from rfl]
    rw [if_neg (by norm_num : ¬((1 : Rat) = 0))]
    rw [show m / 1 / 1000 = m / 1000 from by ring]

/-- Claim C8 witness: the quantified part instantiated at the magnitude
string `"2,5"` (parsed value 5/2). -/
theorem c8_witness :
    opm_get_measurement (fun _ => 0) 0 (fun _ => 'I' :: ((("2,5").data) ++ ['u', 'A'])) 0 initState
      = (initState, .ok (pyRound (5 / 2) 6, microAmpS))
    ∧ opm_get_measurement (fun _ => 0) 0 (fun _ => 'I' :: ((("2,5").data) ++ ['n', 'A'])) 0 initState
      = (initState, .ok (pyRound (5 / 2 / 1000) 6, microAmpS)) :=
  c8_pipeline.1 (fun _ => 0) 0 (("2,5").data) (5 / 2) (by decide) (by decide)

/-- Claim C9 (confirmed): with the dBm display unit the pipeline computes
`10*log10(v/1000000)` rounded to 5 decimals, where `v` is the normalized
reading divided by `correctionFactor*filterFactor`, and it fails with the
logarithm's domain error (`ValueError`) whenever that argument is
non-positive — no value is returned in that case.  (The division itself is
assumed well-defined: `sens*flt` nonzero.) -/
theorem c9_dbm (log10 : Rat → Rat) (piV : Rat) (d : List Char) (m sens flt : Rat)
    (hd : ∀ c ∈ d, c.isDigit = true ∨ c = ',')
    (hm : pyFloat (strReplace [','] ['.'] d) = some m)
    (hden : ¬(sens * flt = 0)) :
    (¬(m / (sens * flt) / 1000000 ≤ 0) →
      opm_get_measurement log10 piV (fun _ => 'I' :: (d ++ ['n', 'A'])) 0
          { initState with unit := dBmS, sensitivity := sens, filter := flt }
        = ({ initState with unit := dBmS, sensitivity := sens, filter := flt },
           .ok (pyRound (10 * log10 (m / (sens * flt) / 1000000)) 5, dBmS)))
    ∧ (m / (sens * flt) / 1000000 ≤ 0 →
      opm_get_measurement log10 piV (fun _ => 'I' :: (d ++ ['n', 'A'])) 0
          { initState with unit := dBmS, sensitivity := sens, filter := flt }
        = ({ initState with unit := dBmS, sensitivity := sens, filter := flt },
           .error .valueError)) := by
  have hdA := digits_ne_A d hd
  have hstrip : pyStrip (d ++ ['n', 'A']) = d ++ ['n', 'A'] :=
    pyStrip_eq_self _ (nonspace_digits_suffix d 'n' 'A' hd (by decide) (by decide))
  have hred : opm_get_measurement log10 piV (fun _ => 'I' :: (d ++ ['n', 'A'])) 0
      { initState with unit := dBmS, sensitivity := sens, filter := flt }
      = (if m / (sens * flt) / 1000000 ≤ 0
         then ({ initState with unit := dBmS, sensitivity := sens, filter := flt },
               .error .valueError)
         else ({ initState with unit := dBmS, sensitivity := sens, filter := flt },
               .ok (pyRound (10 * log10 (m / (sens * flt) / 1000000)) 5, dBmS))) := by
    rw [measurement_red log10 piV _ (d ++ ['n', 'A']) rfl, hstrip]
    unfold measureFinish
    rw [unit_slice_of d 'n' hdA (by decide), mag_take_of d 'n' 'A', hm]
    have hunit : ({ initState with unit := dBmS, sensitivity := sens, filter := flt } : OPMState).unit = dBmS := rfl
    have hsens : ({ initState with unit := dBmS, sensitivity := sens, filter := flt } : OPMState).sensitivity = sens := rfl
    have hflt : ({ initState with unit := dBmS, sensitivity := sens, filter := flt } : OPMState).filter = flt := rfl
    have hnA : ¬((['n', 'A'] : List Char) = uASuffix) := by decide
    have hcur : currentUnits.contains dBmS = false := by decide
    have hn : pyStartsWith dBmS 'n' = false := by decide
    have hmu : pyStartsWith dBmS 'µ' = false := by decide
    have hmm : pyStartsWith dBmS 'm' = false := by decide
    have hirr : irradianceUnits.contains dBmS = false := by decide
    simp only [hunit, hsens, hflt, hnA, hcur, hn, hmu, hmm, hirr, if_false, if_pos,
      eq_self_iff_true, if_true, Bool.false_eq_true]
    rw [if_neg hden]
    by_cases hv : m / (sens * flt) / 1000000 ≤ 0
    · rw [if_pos hv, if_pos hv]
    · rw [if_neg hv, if_neg hv]
  constructor
  · intro hv
    rw [hred, if_neg hv]
  · intro hv
    rw [hred, if_pos hv]

/-- Claim C9 witness: reading `"I1,0nA"`, correction and filter 1, with the
logarithm argument `1/1000000 > 0`. -/
theorem c9_witness :
    opm_get_measurement (fun _ => 0) 0 (fun _ => 'I' :: ((("1,0").data) ++ ['n', 'A'])) 0
        { initState with unit := dBmS, sensitivity := 1, filter := 1 }
      = ({ initState with unit := dBmS, sensitivity := 1, filter := 1 },
         .ok (pyRound (10 * (0 : Rat)) 5, dBmS)) :=
  (c9_dbm (fun _ => 0) 0 (("1,0").data) 1 1 1 (by decide) (by decide) (by norm_num)).1
    (by norm_num)

theorem agLoop_guard (env : Nat → List Char) (gas : Nat) (st : OPMState) (k : Nat)
    (tmp : List Char) (recursion lastOp : Nat) (h : lenGainSteps ≤ recursion) :
    agLoop env gas st k tmp recursion lastOp = ⟨st, k, .ok tmp, 0⟩ := by
  cases gas with
  | zero => rfl
  | succ g =>
    rw [agLoop]
    rw [if_pos h]

set_option maxHeartbeats 2000000 in
theorem agLoop_adj_le (env : Nat → List Char) :
    ∀ (gas : Nat) (st : OPMState) (k : Nat) (tmp : List Char) (recursion lastOp : Nat),
      (agLoop env gas st k tmp recursion lastOp).adj ≤ lenGainSteps - recursion := by
  intro gas
  induction gas with
  | zero => intro st k tmp recursion lastOp; exact Nat.zero_le _
  | succ g ih =>
    intro st k tmp recursion lastOp
    have ihall : ∀ st2 k2 tmp2 rec2 lastOp2,
        (agLoop env g st2 k2 tmp2 rec2 lastOp2).adj ≤ 7 - rec2 := by
      intro st2 k2 tmp2 rec2 lastOp2
      have h := ih st2 k2 tmp2 rec2 lastOp2
      rw [show lenGainSteps = 7 from rfl] at h
      exact h
    rw [agLoop]
    rw [show lenGainSteps = 7 from rfl]
    split
    · exact Nat.zero_le _
    next hrec =>
      repeat'
        first
        | split
        | simp only []
      all_goals
        first
        | exact Nat.zero_le _
        | omega
        | (refine le_trans (Nat.add_le_add_left (ihall _ _ _ _ _) 1) ?_
           omega)

/-- Claim C3 (corrected): `_opm_autogain` performs at most **7** gain
adjustments before returning.  The recursion guard of line 516 compares the
counter against `len(self._gain_steps)`, and the `_gain_steps` table (lines
84-92) holds the six fixed levels *plus* the `"auto-gain"` entry — seven
entries — so a call starting at recursion 0 can adjust at counter values
0..6, i.e. up to 7 times, one more than the claimed cap of 6. -/
theorem c3_amended (env : Nat → List Char) (st : OPMState) (k : Nat)
    (tmp : List Char) (lastOp : Nat) :
    (opm_autogain env st k tmp 0 lastOp).adj ≤ 7 := by
  have h := agLoop_adj_le env (lenGainSteps + 1) st k tmp 0 lastOp
  rw [show lenGainSteps - 0 = 7 from rfl] at h
  exact h

/-- Object state for the concrete autogain runs: auto-gain mode with the
numeric level already resolved to 1 and the default full gain range. -/
def agRunState : OPMState := { initState with gain := autoGainS, autogain_gain := some 1 }

/-- Oracle replies realising a 7-adjustment run: five increments (readings
far below full scale), one decrement at level 6 (a reading far above full
scale), then one further increment — allowed because the hysteresis guard of
lines 557-558 fires on `last_operation == 1`, the decrement code — after
which the recursion cap ends the search. -/
def agSevenReplies : List (List Char) :=
  [("V2 OK").data, ("I0,1nA").data, ("V3 OK").data, ("I0,1nA").data,
   ("V4 OK").data, ("I0,1nA").data, ("V5 OK").data, ("I0,1nA").data,
   ("V6 OK").data, ("I999,0nA").data, ("V5 OK").data, ("I0,1nA").data,
   ("V6 OK").data, ("I0,1nA").data]

/-- Claim C3 counterexample: a run of `_opm_autogain` that performs exactly
7 gain adjustments before returning a reading, exceeding the claimed cap 6. -/
theorem c3_counterexample :
    (opm_autogain (envOf agSevenReplies) agRunState 0 (("0,1nA").data) 0 0).adj = 7 := by
  decide

/-- Oracle replies with every reading far below full scale, so that only the
increment branch can fire. -/
def agIncReplies : List (List Char) :=
  [("V2 OK").data, ("I0,1nA").data, ("V3 OK").data, ("I0,1nA").data,
   ("V4 OK").data, ("I0,1nA").data, ("V5 OK").data, ("I0,1nA").data,
   ("V6 OK").data, ("I0,1nA").data]

/-- Claim C4 counterexample: with tiny readings the controller chains
increments 1→2→3→4→5→6 — five increments in a row and five adjustments in
total.  Had the claimed hysteresis held (forced termination right after an
increment that follows an increment), at most two adjustments could occur.
The guard of line 557 tests `last_operation == 1`, which is the code passed
by the *decrement* branch (line 555), not by the increment branch
(line 561, code 2). -/
theorem c4_counterexample :
    (opm_autogain (envOf agIncReplies) agRunState 0 (("0,1nA").data) 0 0).adj = 5
    ∧ (opm_autogain (envOf agIncReplies) agRunState 0 (("0,1nA").data) 0 0).st.autogain_gain
        = some 6 := by
  decide

/-- Claim C4 (corrected): the hysteresis guard terminates the search after
an increment that immediately follows a *decrement*: whenever the increment
branch is entered with `last_operation = 1` (the decrement code), exactly
one further adjustment is performed — the recursion counter is forced to the
cap before recursing, so the recursive call returns at once.  Consecutive
*increments*, by contrast, may chain freely (see the counterexample). -/
theorem c4_amended (env : Nat → List Char) (st : OPMState) (k : Nat)
    (tmp : List Char) (recursion : Nat) (g : Int) (a : Rat)
    (hrec : recursion < lenGainSteps)
    (hg : st.autogain_gain = some g)
    (ha : pyFloat (strReplace [','] ['.'] (List.take (tmp.length - 2) tmp)) = some a)
    (hhi : ¬(90 < agLevel (some g) a))
    (hlo : agLevel (some g) a < 8)
    (hmax : g < st.max_gain) :
    (opm_autogain env st k tmp recursion 1).adj = 1 := by
  unfold opm_autogain
  rw [agLoop]
  rw [if_neg (Nat.not_le.mpr hrec)]
  rw [if_neg (by simp [hg])]
  simp only [hg, ha]
  rw [if_neg hhi, if_pos hlo, if_pos hmax]
  simp only [if_true]
  split
  · rfl
  next key hkey =>
    split
    next st3 e hsg => rfl
    next st3 b hsg =>
      rw [agLoop_guard _ _ _ _ _ _ _ (Nat.le_succ _)]
      rfl

/-- Claim C4 witness: the amended statement at level 5 with the tiny reading
`"0,1nA"` (full-scale percentage ≈ 0.8% < 8) and `last_operation = 1`. -/
theorem c4_witness :
    (opm_autogain (fun _ => []) { initState with gain := autoGainS, autogain_gain := some 5 }
      0 (("0,1nA").data) 0 1).adj = 1 :=
  c4_amended (fun _ => []) { initState with gain := autoGainS, autogain_gain := some 5 }
    0 (("0,1nA").data) 0 5 (1 / 10) (by decide) (by decide) (by decide) (by decide)
    (by decide) (by decide)
